import Mathlib

/-!
Verification of the flat collection matcher from
`aws/internal/tfawsresource/testing.go` (functions
`TestCheckTypeSetElemNestedAttrs` and `TestCheckTypeSetElemAttr`).

The Go code is embedded shallowly:

* `strings.Split(s, ".")` becomes `split` (structural recursion over the
  character list of the string, splitting on the character of the one-byte
  separator, which agrees with Go's `strings.Split` for a one-byte separator);
* `strings.Join(parts, ".")` becomes `String.intercalate "."`;
* Go maps that are only read through key lookup (`is.Attributes`, the
  criteria map `values`, `ms.Resources`) become association lists read with
  `List.lookup`; the `for ... range` loops over them become structural
  recursion over the list, so iteration order is explicit;
* the per-query counter map `matches` becomes a total function
  `String → Nat` (a Go `map[string]int` read of a missing key yields 0);
* `fmt.Errorf` results become constructors of `MatchError` carrying the
  values interpolated into the message;
* a Go runtime panic (index out of range) becomes the `CheckResult.panicked`
  outcome.  The segment-comparison loop indexes `stateKeyParts[i]` for every
  `i < len(attrParts)` and Go evaluates that index before the short-circuit
  `&&`, so a state key shorter than the pattern is a reachable panic.
-/

/-- The wildcard sentinel, `sentinelIndex = "*"` from the source. -/
def sentinelIndex : String := "*"

/-- Auxiliary for `split`: splits a character list at every occurrence of
`sep`, accumulating the current segment in reverse. -/
def splitAux (sep : Char) : List Char → List Char → List String
  | [], acc => [String.mk acc.reverse]
  | c :: cs, acc =>
    if c = sep then String.mk acc.reverse :: splitAux sep cs []
    else splitAux sep cs (c :: acc)

/-- Embedding of Go `strings.Split(s, ".")`: splits `s` at every `.`,
always returning at least one (possibly empty) segment. -/
def split (s : String) : List String := splitAux '.' s.data []

/-- The error values produced by the two check functions, one constructor
per `fmt.Errorf` site, carrying the data interpolated into the message. -/
inductive MatchError where
  /-- `"Not found: %s in %s", res, ms.Path` -/
  | resourceNotFound (res : String) (path : List String)
  /-- `"No primary instance: %s in %s", res, ms.Path` -/
  | instanceNotFound (res : String) (path : List String)
  /-- `"%q does not end with the special value %q", attr, sentinelIndex` -/
  | invalidPattern (attr : String)
  /-- `"%#v has no non-empty values", values` -/
  | emptyCriteria (values : List (String × String))
  /-- `"%q no TypeSet element %q, with nested attrs %#v in state: %#v"` -/
  | elementNotFoundNested (res attr : String) (values attrs : List (String × String))
  /-- `"%q no TypeSet element %q, with value %q in state: %#v"` -/
  | elementNotFoundScalar (res attr value : String) (attrs : List (String × String))
  deriving DecidableEq

/-- Result of running a check: `nil` return, an error return, or a Go
runtime panic (index out of range). -/
inductive CheckResult where
  | ok
  | err (e : MatchError)
  | panicked
  deriving DecidableEq

/-- The payload-free outcome of a check, used to state order- and
filtering-invariance of the success/failure verdict. -/
inductive Outcome where
  | ok
  | resourceNotFound
  | instanceNotFound
  | invalidPattern
  | emptyCriteria
  | elementNotFound
  | panicked
  deriving DecidableEq

/-- Forget the diagnostic payload of a `CheckResult`. -/
def CheckResult.outcome : CheckResult → Outcome
  | .ok => .ok
  | .panicked => .panicked
  | .err (.resourceNotFound ..) => .resourceNotFound
  | .err (.instanceNotFound ..) => .instanceNotFound
  | .err (.invalidPattern ..) => .invalidPattern
  | .err (.emptyCriteria ..) => .emptyCriteria
  | .err (.elementNotFoundNested ..) => .elementNotFound
  | .err (.elementNotFoundScalar ..) => .elementNotFound

/-- Embedding of the inner segment-comparison loop shared by both check
functions, at loop position `i` presented as the two suffixes
`attrParts.drop i` and `stateKeyParts.drop i`:

```go
for i := range attrParts {
    if attrParts[i] != stateKeyParts[i] && attrParts[i] != sentinelIndex {
        break
    }
    if i == len(attrParts)-1 {
        pathMatch = true
    }
}
```

`some b` is the final value of `pathMatch`; `none` is the runtime panic Go
raises evaluating `stateKeyParts[i]` when the state key has fewer segments
than the pattern (the index is evaluated before the short-circuit `&&`).
The `as = []` test is `i == len(attrParts)-1`. -/
def pathMatch : List String → List String → Option Bool
  | [], _ => some false
  | _ :: _, [] => none
  | a :: as, p :: ps =>
    if a ≠ p ∧ a ≠ sentinelIndex then some false
    else if as = [] then some true
    else pathMatch as ps

/-- Embedding of `matchCount` from the source: the number of criteria whose
expected value is non-empty.

```go
var matchCount int
for _, v := range values {
    if v != "" {
        matchCount++
    }
}
``` -/
def matchCount (values : List (String × String)) : Nat :=
  values.countP (fun kv => kv.2 != "")

/-- Embedding of the state-scanning loop of `TestCheckTypeSetElemNestedAttrs`
(lines 64–92 of the source), with the remaining entries and the current
counter map made explicit:

```go
for stateKey, stateValue := range is.Attributes {
    stateKeyParts := strings.Split(stateKey, ".")
    if len(stateKeyParts) < 3 {
        continue
    }
    var pathMatch bool
    ... // the segment loop, `pathMatch` above
    if !pathMatch {
        continue
    }
    id := stateKeyParts[len(attrParts)-1]
    nestedAttr := strings.Join(stateKeyParts[len(attrParts):], ".")
    if v, keyExists := values[nestedAttr]; keyExists && v == stateValue {
        matches[id] = matches[id] + 1
        if matches[id] == matchCount {
            return nil
        }
    }
}
return fmt.Errorf(... res, attr, values, is.Attributes)
```

`allAttrs` is the full `is.Attributes` snapshot used in the final error, and
`counts` is the Go counter map `matches` (a missing key reads as 0). -/
def nestedScan (res attr : String) (attrParts : List String)
    (values : List (String × String)) (mc : Nat)
    (allAttrs : List (String × String)) :
    List (String × String) → (String → Nat) → CheckResult
  | [], _ => .err (.elementNotFoundNested res attr values allAttrs)
  | (stateKey, stateValue) :: rest, counts =>
    let stateKeyParts := split stateKey
    if stateKeyParts.length < 3 then
      nestedScan res attr attrParts values mc allAttrs rest counts
    else
      match pathMatch attrParts stateKeyParts with
      | none => .panicked
      | some false => nestedScan res attr attrParts values mc allAttrs rest counts
      | some true =>
        match stateKeyParts.get? (attrParts.length - 1) with
        | none => .panicked
        | some id =>
          let nestedAttr := String.intercalate "." (stateKeyParts.drop attrParts.length)
          match values.lookup nestedAttr with
          | none => nestedScan res attr attrParts values mc allAttrs rest counts
          | some v =>
            if v = stateValue then
              if counts id + 1 = mc then .ok
              else
                nestedScan res attr attrParts values mc allAttrs rest
                  (fun k => if k = id then counts k + 1 else counts k)
            else nestedScan res attr attrParts values mc allAttrs rest counts

/-- Embedding of the body of `TestCheckTypeSetElemNestedAttrs` after the
resource and primary-instance lookups (lines 47–94 of the source): pattern
validation, the non-empty-criteria precondition, then the scan over the
flat state `attrs`. -/
def nestedAttrsCheck (res attr : String) (values attrs : List (String × String)) :
    CheckResult :=
  let attrParts := split attr
  if attrParts.getD (attrParts.length - 1) "" ≠ sentinelIndex then
    .err (.invalidPattern attr)
  else if matchCount values = 0 then
    .err (.emptyCriteria values)
  else
    nestedScan res attr attrParts values (matchCount values) attrs attrs (fun _ => 0)

/-- Embedding of the state-scanning loop of `TestCheckTypeSetElemAttr`
(lines 122–136 of the source):

```go
for stateKey, stateValue := range is.Attributes {
    if stateValue == value {
        stateKeyParts := strings.Split(stateKey, ".")
        if len(stateKeyParts) == len(attrParts) {
            for i := range attrParts {
                ... // the segment loop; `return nil` at i == len(attrParts)-1
            }
        }
    }
}
return fmt.Errorf(... res, attr, value, is.Attributes)
``` -/
def scalarScan (res attr : String) (attrParts : List String) (value : String)
    (allAttrs : List (String × String)) : List (String × String) → CheckResult
  | [] => .err (.elementNotFoundScalar res attr value allAttrs)
  | (stateKey, stateValue) :: rest =>
    if stateValue = value then
      let stateKeyParts := split stateKey
      if stateKeyParts.length = attrParts.length then
        match pathMatch attrParts stateKeyParts with
        | none => .panicked
        | some true => .ok
        | some false => scalarScan res attr attrParts value allAttrs rest
      else scalarScan res attr attrParts value allAttrs rest
    else scalarScan res attr attrParts value allAttrs rest

/-- Embedding of the body of `TestCheckTypeSetElemAttr` after the resource
and primary-instance lookups (lines 118–138 of the source). -/
def elemAttrCheck (res attr value : String) (attrs : List (String × String)) :
    CheckResult :=
  let attrParts := split attr
  if attrParts.getD (attrParts.length - 1) "" ≠ sentinelIndex then
    .err (.invalidPattern attr)
  else
    scalarScan res attr attrParts value attrs attrs

/-- Embedding of `terraform.InstanceState`: the flattened attribute map. -/
structure InstanceState where
  attributes : List (String × String)
  deriving DecidableEq

/-- Embedding of `terraform.ResourceState`: `Primary` is a nilable pointer. -/
structure ResourceState where
  primary : Option InstanceState
  deriving DecidableEq

/-- Embedding of `terraform.ModuleState`: the path and the resource map. -/
structure ModuleState where
  path : List String
  resources : List (String × ResourceState)
  deriving DecidableEq

/-- Embedding of `terraform.State`, restricted to the root module, which is
the only module the two check functions consult (`s.RootModule()`). -/
structure TfState where
  rootModule : ModuleState
  deriving DecidableEq

/-- Embedding of `TestCheckTypeSetElemNestedAttrs` applied to a state: the
resource lookup, the primary-instance check, then `nestedAttrsCheck` on the
instance's flattened attributes (lines 35–95 of the source). -/
def TestCheckTypeSetElemNestedAttrs (res attr : String)
    (values : List (String × String)) (s : TfState) : CheckResult :=
  let ms := s.rootModule
  match ms.resources.lookup res with
  | none => .err (.resourceNotFound res ms.path)
  | some rs =>
    match rs.primary with
    | none => .err (.instanceNotFound res ms.path)
    | some is => nestedAttrsCheck res attr values is.attributes

/-- Embedding of `TestCheckTypeSetElemAttr` applied to a state (lines
106–139 of the source). -/
def TestCheckTypeSetElemAttr (res attr value : String) (s : TfState) :
    CheckResult :=
  let ms := s.rootModule
  match ms.resources.lookup res with
  | none => .err (.resourceNotFound res ms.path)
  | some rs =>
    match rs.primary with
    | none => .err (.instanceNotFound res ms.path)
    | some is => elemAttrCheck res attr value is.attributes

/-! ## Specification-side definitions

The following definitions are written from the specification's and the
claims' wording, to be compared against the embedded code above. -/

/-- Key-length side condition: the state key either is short enough to be
skipped by the scan (`< 3` segments) or has at least as many segments as
the pattern, so the segment-comparison loop stays in bounds. -/
def keyLenOK (attrParts : List String) (key : String) : Prop :=
  (split key).length < 3 ∨ attrParts.length ≤ (split key).length

instance (attrParts : List String) (key : String) :
    Decidable (keyLenOK attrParts key) := by
  unfold keyLenOK
  infer_instance

/-- Spec-side predicate, from the claim's words: the state entry `kv` is a
key the nested matcher considers (at least three segments), matches the
pattern with element id `id` (segment-for-segment, a sentinel segment
matching anything, the id sitting at the pattern's final position), its
nested-attribute suffix is a key of the criteria map, and its value equals
that criterion's expected value. -/
def nestedQualifies (attrParts : List String) (values : List (String × String))
    (id : String) (kv : String × String) : Bool :=
  let parts := split kv.1
  decide (3 ≤ parts.length) && decide (attrParts.length ≤ parts.length) &&
    (parts.get? (attrParts.length - 1) == some id) &&
    (List.range attrParts.length).all
      (fun i => (attrParts.getD i "" == parts.getD i "") ||
        (attrParts.getD i "" == sentinelIndex)) &&
    (values.lookup (String.intercalate "." (parts.drop attrParts.length)) == some kv.2)

/-- Spec-side predicate, from the claim's words: the state entry `kv` has a
key whose segment count equals the pattern's, a value equal to the expected
scalar, and segments equal to the pattern's position-for-position, a
sentinel segment matching any single segment. -/
def scalarSpecMatch (attrParts : List String) (value : String)
    (kv : String × String) : Bool :=
  let parts := split kv.1
  decide (parts.length = attrParts.length) && (kv.2 == value) &&
    (List.range attrParts.length).all
      (fun i => (attrParts.getD i "" == parts.getD i "") ||
        (attrParts.getD i "" == sentinelIndex))

/-! ## Helper lemmas -/

theorem splitAux_ne_nil (sep : Char) (cs : List Char) (acc : List Char) :
    splitAux sep cs acc ≠ [] := by
  induction cs generalizing acc with
  | nil => simp [splitAux]
  | cons c cs ih =>
    simp only [splitAux]
    split
    · simp
    · exact ih _

theorem split_ne_nil (s : String) : split s ≠ [] := splitAux_ne_nil _ _ _

/-- The segment loop yields `some true` exactly when the pattern is
nonempty, no longer than the key, and matches it segment-for-segment with
sentinel segments matching anything. -/
theorem pathMatch_eq_some_true_iff (a p : List String) :
    pathMatch a p = some true ↔
      a ≠ [] ∧ a.length ≤ p.length ∧
        ∀ i < a.length, a.getD i "" = p.getD i "" ∨ a.getD i "" = sentinelIndex := by
  induction a generalizing p with
  | nil => simp [pathMatch]
  | cons x as ih =>
    cases p with
    | nil => simp [pathMatch]
    | cons y ps =>
      simp only [pathMatch]
      by_cases hbr : x ≠ y ∧ x ≠ sentinelIndex
      · rw [if_pos hbr]
        constructor
        · intro h
          exact absurd h (by simp)
        · rintro ⟨-, -, hall⟩
          have h0 := hall 0 (by simp)
          simp only [List.getD_cons_zero] at h0
          rcases h0 with h0 | h0
          · exact absurd h0 hbr.1
          · exact absurd h0 hbr.2
      · rw [if_neg hbr]
        push_neg at hbr
        by_cases has : as = []
        · subst has
          simp only [if_pos rfl]
          constructor
          · intro _
            refine ⟨by simp, by simp, ?_⟩
            intro i hi
            have hi0 : i = 0 := by simpa using Nat.lt_one_iff.mp (by simpa using hi)
            subst hi0
            simp only [List.getD_cons_zero]
            by_cases hxy : x = y
            · exact Or.inl hxy
            · exact Or.inr (hbr hxy)
          · intro _
            rfl
        · rw [if_neg has]
          rw [ih ps]
          constructor
          · rintro ⟨h1, h2, h3⟩
            refine ⟨by simp, by simpa using h2, ?_⟩
            intro i hi
            cases i with
            | zero =>
              simp only [List.getD_cons_zero]
              by_cases hxy : x = y
              · exact Or.inl hxy
              · exact Or.inr (hbr hxy)
            | succ j =>
              simp only [List.getD_cons_succ]
              exact h3 j (by simpa using hi)
          · rintro ⟨-, h2, h3⟩
            refine ⟨has, by simpa using h2, ?_⟩
            intro j hj
            have := h3 (j + 1) (by simpa using hj)
            simpa only [List.getD_cons_succ] using this

/-- The segment loop cannot panic when the key has at least as many
segments as the pattern. -/
theorem pathMatch_ne_none (a p : List String) (h : a.length ≤ p.length) :
    pathMatch a p ≠ none := by
  induction a generalizing p with
  | nil => simp [pathMatch]
  | cons x as ih =>
    cases p with
    | nil => simp at h
    | cons y ps =>
      simp only [pathMatch]
      split
      · simp
      · split
        · simp
        · exact ih ps (by simpa using h)


/-- Unfolding of `nestedQualifies` at a pair into its propositional
components. -/
theorem nestedQualifies_pair_iff (attrParts : List String)
    (values : List (String × String)) (id k v : String) :
    nestedQualifies attrParts values id (k, v) = true ↔
      3 ≤ (split k).length ∧ attrParts.length ≤ (split k).length ∧
      (split k).get? (attrParts.length - 1) = some id ∧
      (∀ i < attrParts.length,
        attrParts.getD i "" = (split k).getD i "" ∨
        attrParts.getD i "" = sentinelIndex) ∧
      values.lookup (String.intercalate "." ((split k).drop attrParts.length)) =
        some v := by
  simp only [nestedQualifies, Bool.and_eq_true, decide_eq_true_eq, beq_iff_eq,
    List.all_eq_true, List.mem_range, Bool.or_eq_true, and_assoc]

/-- Unfolding of `scalarSpecMatch` at a pair into its propositional
components. -/
theorem scalarSpecMatch_pair_iff (attrParts : List String) (value k v : String) :
    scalarSpecMatch attrParts value (k, v) = true ↔
      (split k).length = attrParts.length ∧ v = value ∧
      (∀ i < attrParts.length,
        attrParts.getD i "" = (split k).getD i "" ∨
        attrParts.getD i "" = sentinelIndex) := by
  simp only [scalarSpecMatch, Bool.and_eq_true, decide_eq_true_eq, beq_iff_eq,
    List.all_eq_true, List.mem_range, Bool.or_eq_true, and_assoc]

/-- Loop invariant of the nested scan: with the current counter `m` strictly
below the threshold everywhere and every remaining key in-bounds for the
segment loop, the scan succeeds exactly when some element id's counter plus
its qualifying entries among the remaining state reach the threshold, and
otherwise it returns the element-not-found error. -/
theorem nestedScan_characterization (res attr : String) (aps : List String)
    (vals : List (String × String)) (mc : Nat) (allA : List (String × String))
    (haps : aps ≠ []) (l : List (String × String)) :
    ∀ m : String → Nat, (∀ id, m id < mc) → (∀ kv ∈ l, keyLenOK aps kv.1) →
      (nestedScan res attr aps vals mc allA l m = .ok ↔
        ∃ id, mc ≤ m id + l.countP (nestedQualifies aps vals id)) ∧
      (nestedScan res attr aps vals mc allA l m ≠ .ok →
        nestedScan res attr aps vals mc allA l m =
          .err (.elementNotFoundNested res attr vals allA)) := by
  induction l with
  | nil =>
    intro m hm _
    refine ⟨⟨fun h => ?_, fun h => ?_⟩, fun _ => rfl⟩
    · simp [nestedScan] at h
    · obtain ⟨id, hid⟩ := h
      have := hm id
      simp only [List.countP_nil] at hid
      omega
  | cons kv rest ih =>
    obtain ⟨k, v⟩ := kv
    intro m hm hlen
    have hrest : ∀ kv ∈ rest, keyLenOK aps kv.1 :=
      fun kv h => hlen kv (List.mem_cons_of_mem _ h)
    by_cases h3 : (split k).length < 3
    · have hqn : ∀ id, ¬ (nestedQualifies aps vals id (k, v) = true) := by
        intro id hcon
        exact absurd ((nestedQualifies_pair_iff aps vals id k v).mp hcon).1
          (by omega)
      have hstep : nestedScan res attr aps vals mc allA ((k, v) :: rest) m =
          nestedScan res attr aps vals mc allA rest m := by
        simp only [nestedScan]
        rw [if_pos h3]
      have hcount : ∀ id, List.countP (nestedQualifies aps vals id) ((k, v) :: rest) =
          List.countP (nestedQualifies aps vals id) rest :=
        fun id => List.countP_cons_of_neg _ _ (hqn id)
      rw [hstep]
      simp only [hcount]
      exact ih m hm hrest
    · have hle : aps.length ≤ (split k).length := by
        rcases hlen (k, v) (List.mem_cons_self _ _) with h | h
        · exact absurd h h3
        · exact h
      rcases hpm : pathMatch aps (split k) with - | b
      · exact absurd hpm (pathMatch_ne_none _ _ hle)
      · cases b with
        | false =>
          have hqn : ∀ id, ¬ (nestedQualifies aps vals id (k, v) = true) := by
            intro id hcon
            obtain ⟨-, hle2, -, hall, -⟩ :=
              (nestedQualifies_pair_iff aps vals id k v).mp hcon
            have : pathMatch aps (split k) = some true :=
              (pathMatch_eq_some_true_iff _ _).mpr ⟨haps, hle2, hall⟩
            rw [hpm] at this
            simp at this
          have hstep : nestedScan res attr aps vals mc allA ((k, v) :: rest) m =
              nestedScan res attr aps vals mc allA rest m := by
            simp only [nestedScan]
            rw [if_neg h3, hpm]
          have hcount : ∀ id, List.countP (nestedQualifies aps vals id) ((k, v) :: rest) =
              List.countP (nestedQualifies aps vals id) rest :=
            fun id => List.countP_cons_of_neg _ _ (hqn id)
          rw [hstep]
          simp only [hcount]
          exact ih m hm hrest
        | true =>
          obtain ⟨-, hle2, hall⟩ := (pathMatch_eq_some_true_iff _ _).mp hpm
          have hlt : aps.length - 1 < (split k).length := by
            have h1 : 0 < aps.length := List.length_pos.mpr haps
            omega
          obtain ⟨id0, hid0⟩ : ∃ id0, (split k).get? (aps.length - 1) = some id0 :=
            ⟨_, List.get?_eq_get hlt⟩
          rcases hlook : vals.lookup (String.intercalate "."
              ((split k).drop aps.length)) with - | w
          · have hqn : ∀ id, ¬ (nestedQualifies aps vals id (k, v) = true) := by
              intro id hcon
              obtain ⟨-, -, -, -, hl⟩ :=
                (nestedQualifies_pair_iff aps vals id k v).mp hcon
              rw [hlook] at hl
              simp at hl
            have hstep : nestedScan res attr aps vals mc allA ((k, v) :: rest) m =
                nestedScan res attr aps vals mc allA rest m := by
              simp only [nestedScan]
              rw [if_neg h3, hpm, hid0, hlook]
            have hcount : ∀ id, List.countP (nestedQualifies aps vals id) ((k, v) :: rest) =
                List.countP (nestedQualifies aps vals id) rest :=
              fun id => List.countP_cons_of_neg _ _ (hqn id)
            rw [hstep]
            simp only [hcount]
            exact ih m hm hrest
          · by_cases hv : w = v
            · rw [hv] at hlook
              have hqtrue : nestedQualifies aps vals id0 (k, v) = true :=
                (nestedQualifies_pair_iff aps vals id0 k v).mpr
                  ⟨Nat.not_lt.mp h3, hle2, hid0, hall, hlook⟩
              have hqfalse : ∀ id, id ≠ id0 →
                  ¬ (nestedQualifies aps vals id (k, v) = true) := by
                intro id hne hcon
                obtain ⟨-, -, hg, -, -⟩ :=
                  (nestedQualifies_pair_iff aps vals id k v).mp hcon
                rw [hid0] at hg
                exact hne (Option.some_injective _ hg).symm
              have hcpos : List.countP (nestedQualifies aps vals id0) ((k, v) :: rest) =
                  List.countP (nestedQualifies aps vals id0) rest + 1 :=
                List.countP_cons_of_pos _ _ hqtrue
              have hcneg : ∀ id, id ≠ id0 →
                  List.countP (nestedQualifies aps vals id) ((k, v) :: rest) =
                  List.countP (nestedQualifies aps vals id) rest :=
                fun id hne => List.countP_cons_of_neg _ _ (hqfalse id hne)
              by_cases hhit : m id0 + 1 = mc
              · have hstep : nestedScan res attr aps vals mc allA ((k, v) :: rest) m =
                    .ok := by
                  simp only [nestedScan]
                  rw [if_neg h3]
                  simp only [hpm, hid0, hlook]
                  rw [if_pos trivial, if_pos hhit]
                rw [hstep]
                refine ⟨⟨fun _ => ⟨id0, ?_⟩, fun _ => rfl⟩, fun h => absurd rfl h⟩
                rw [hcpos]
                omega
              · have hstep : nestedScan res attr aps vals mc allA ((k, v) :: rest) m =
                    nestedScan res attr aps vals mc allA rest
                      (fun j => if j = id0 then m j + 1 else m j) := by
                  simp only [nestedScan]
                  rw [if_neg h3]
                  simp only [hpm, hid0, hlook]
                  rw [if_pos trivial, if_neg hhit]
                have hm2 : ∀ id, (if id = id0 then m id + 1 else m id) < mc := by
                  intro id
                  by_cases h : id = id0
                  · rw [if_pos h, h]
                    have := hm id0
                    omega
                  · rw [if_neg h]
                    exact hm id
                rw [hstep]
                obtain ⟨hiff, herr⟩ := ih _ hm2 hrest
                refine ⟨?_, herr⟩
                rw [hiff]
                refine exists_congr fun id => ?_
                show mc ≤ (if id = id0 then m id + 1 else m id) +
                    List.countP (nestedQualifies aps vals id) rest ↔ _
                by_cases h : id = id0
                · rw [if_pos h, h, hcpos]
                  omega
                · rw [if_neg h, hcneg id h]
            · have hqn : ∀ id, ¬ (nestedQualifies aps vals id (k, v) = true) := by
                intro id hcon
                obtain ⟨-, -, -, -, hl⟩ :=
                  (nestedQualifies_pair_iff aps vals id k v).mp hcon
                rw [hlook] at hl
                exact hv (Option.some_injective _ hl)
              have hstep : nestedScan res attr aps vals mc allA ((k, v) :: rest) m =
                  nestedScan res attr aps vals mc allA rest m := by
                simp only [nestedScan]
                rw [if_neg h3]
                simp only [hpm, hid0, hlook]
                rw [if_neg hv]
              have hcount : ∀ id, List.countP (nestedQualifies aps vals id) ((k, v) :: rest) =
                  List.countP (nestedQualifies aps vals id) rest :=
                fun id => List.countP_cons_of_neg _ _ (hqn id)
              rw [hstep]
              simp only [hcount]
              exact ih m hm hrest

/-- Success of the nested scan always identifies a single element id whose
counter plus its own qualifying entries reach the threshold, with no
hypotheses on the remaining state (a panic cuts the scan short, so a
successful run processed only well-formed prefixes). -/
theorem nestedScan_ok_exists (res attr : String) (aps : List String)
    (vals : List (String × String)) (mc : Nat) (allA : List (String × String))
    (haps : aps ≠ []) (l : List (String × String)) :
    ∀ m : String → Nat, nestedScan res attr aps vals mc allA l m = .ok →
      ∃ id, mc ≤ m id + l.countP (nestedQualifies aps vals id) := by
  induction l with
  | nil =>
    intro m h
    simp [nestedScan] at h
  | cons kv rest ih =>
    obtain ⟨k, v⟩ := kv
    intro m h
    have hmono : (∃ id, mc ≤ m id + rest.countP (nestedQualifies aps vals id)) →
        ∃ id, mc ≤ m id + ((k, v) :: rest).countP (nestedQualifies aps vals id) := by
      rintro ⟨id, hid⟩
      refine ⟨id, ?_⟩
      rw [List.countP_cons]
      split
      · omega
      · omega
    simp only [nestedScan] at h
    by_cases h3 : (split k).length < 3
    · rw [if_pos h3] at h
      exact hmono (ih m h)
    · rw [if_neg h3] at h
      rcases hpm : pathMatch aps (split k) with - | b
      · rw [hpm] at h
        simp at h
      · cases b with
        | false =>
          simp only [hpm] at h
          exact hmono (ih m h)
        | true =>
          obtain ⟨-, hle2, hall⟩ := (pathMatch_eq_some_true_iff _ _).mp hpm
          have hlt : aps.length - 1 < (split k).length := by
            have h1 : 0 < aps.length := List.length_pos.mpr haps
            omega
          obtain ⟨id0, hid0⟩ : ∃ id0, (split k).get? (aps.length - 1) = some id0 :=
            ⟨_, List.get?_eq_get hlt⟩
          rcases hlook : vals.lookup (String.intercalate "."
              ((split k).drop aps.length)) with - | w
          · simp only [hpm, hid0, hlook] at h
            exact hmono (ih m h)
          · simp only [hpm, hid0, hlook] at h
            by_cases hv : w = v
            · rw [hv] at hlook
              rw [if_pos hv] at h
              have hqtrue : nestedQualifies aps vals id0 (k, v) = true :=
                (nestedQualifies_pair_iff aps vals id0 k v).mpr
                  ⟨Nat.not_lt.mp h3, hle2, hid0, hall, hlook⟩
              have hcpos : List.countP (nestedQualifies aps vals id0) ((k, v) :: rest) =
                  List.countP (nestedQualifies aps vals id0) rest + 1 :=
                List.countP_cons_of_pos _ _ hqtrue
              by_cases hhit : m id0 + 1 = mc
              · refine ⟨id0, ?_⟩
                rw [hcpos]
                omega
              · rw [if_neg hhit] at h
                obtain ⟨id, hid⟩ := ih _ h
                by_cases hne : id = id0
                · subst hne
                  rw [if_pos rfl] at hid
                  exact ⟨id, by rw [hcpos]; omega⟩
                · rw [if_neg hne] at hid
                  refine ⟨id, ?_⟩
                  rw [List.countP_cons]
                  split
                  · omega
                  · omega
            · rw [if_neg hv] at h
              exact hmono (ih m h)

/-- Characterization of the scalar scan: it succeeds exactly when some
entry satisfies `scalarSpecMatch`, and otherwise returns the
element-not-found error; the length-equality guard keeps the segment loop
in bounds, so the scan never panics. -/
theorem scalarScan_characterization (res attr : String) (aps : List String)
    (value : String) (allA : List (String × String)) (haps : aps ≠ [])
    (l : List (String × String)) :
    (scalarScan res attr aps value allA l = .ok ↔
      l.any (scalarSpecMatch aps value) = true) ∧
    (scalarScan res attr aps value allA l ≠ .ok →
      scalarScan res attr aps value allA l =
        .err (.elementNotFoundScalar res attr value allA)) := by
  induction l with
  | nil =>
    refine ⟨⟨fun h => ?_, fun h => ?_⟩, fun _ => rfl⟩
    · simp [scalarScan] at h
    · simp at h
  | cons kv rest ih =>
    obtain ⟨k, v⟩ := kv
    by_cases hv : v = value
    · by_cases hlen : (split k).length = aps.length
      · rcases hpm : pathMatch aps (split k) with - | b
        · exact absurd hpm (pathMatch_ne_none _ _ (le_of_eq hlen.symm))
        · cases b with
          | false =>
            have hsm : ¬ (scalarSpecMatch aps value (k, v) = true) := by
              intro hcon
              obtain ⟨hl, -, hall⟩ := (scalarSpecMatch_pair_iff aps value k v).mp hcon
              have : pathMatch aps (split k) = some true :=
                (pathMatch_eq_some_true_iff _ _).mpr ⟨haps, le_of_eq hl.symm, hall⟩
              rw [hpm] at this
              simp at this
            have hstep : scalarScan res attr aps value allA ((k, v) :: rest) =
                scalarScan res attr aps value allA rest := by
              simp only [scalarScan]
              rw [if_pos hv, if_pos hlen]
              simp only [hpm]
            rw [hstep]
            rw [List.any_cons]
            simp only [Bool.eq_false_iff.mpr hsm, Bool.false_or]
            exact ih
          | true =>
            obtain ⟨-, -, hall⟩ := (pathMatch_eq_some_true_iff _ _).mp hpm
            have hsm : scalarSpecMatch aps value (k, v) = true :=
              (scalarSpecMatch_pair_iff aps value k v).mpr ⟨hlen, hv, hall⟩
            have hstep : scalarScan res attr aps value allA ((k, v) :: rest) = .ok := by
              simp only [scalarScan]
              rw [if_pos hv, if_pos hlen]
              simp only [hpm]
            rw [hstep]
            refine ⟨⟨fun _ => ?_, fun _ => rfl⟩, fun h => absurd rfl h⟩
            rw [List.any_cons, hsm]
            simp
      · have hsm : ¬ (scalarSpecMatch aps value (k, v) = true) := by
          intro hcon
          exact hlen ((scalarSpecMatch_pair_iff aps value k v).mp hcon).1
        have hstep : scalarScan res attr aps value allA ((k, v) :: rest) =
            scalarScan res attr aps value allA rest := by
          simp only [scalarScan]
          rw [if_pos hv, if_neg hlen]
        rw [hstep]
        rw [List.any_cons]
        simp only [Bool.eq_false_iff.mpr hsm, Bool.false_or]
        exact ih
    · have hsm : ¬ (scalarSpecMatch aps value (k, v) = true) := by
        intro hcon
        exact hv ((scalarSpecMatch_pair_iff aps value k v).mp hcon).2.1
      have hstep : scalarScan res attr aps value allA ((k, v) :: rest) =
          scalarScan res attr aps value allA rest := by
        simp only [scalarScan]
        rw [if_neg hv]
      rw [hstep]
      rw [List.any_cons]
      simp only [Bool.eq_false_iff.mpr hsm, Bool.false_or]
      exact ih

/-- Gate reduction: with a valid pattern and a non-zero threshold, the
nested check is the scan started from the zero counter. -/
theorem nestedAttrsCheck_eq_scan (res attr : String)
    (vals attrs : List (String × String))
    (hpat : (split attr).getD ((split attr).length - 1) "" = sentinelIndex)
    (hmc : matchCount vals ≠ 0) :
    nestedAttrsCheck res attr vals attrs =
      nestedScan res attr (split attr) vals (matchCount vals) attrs attrs
        (fun _ => 0) := by
  simp only [nestedAttrsCheck]
  rw [if_neg (fun hc => hc hpat), if_neg hmc]

/-- Gate reduction for the scalar check with a valid pattern. -/
theorem elemAttrCheck_eq_scan (res attr value : String)
    (attrs : List (String × String))
    (hpat : (split attr).getD ((split attr).length - 1) "" = sentinelIndex) :
    elemAttrCheck res attr value attrs =
      scalarScan res attr (split attr) value attrs attrs := by
  simp only [elemAttrCheck]
  rw [if_neg (fun hc => hc hpat)]

/-- A state entry whose key has fewer than three segments is skipped by the
nested scan, so dropping all such entries only changes the diagnostic
payload of the final error, never the outcome. -/
theorem nestedScan_filter_outcome (res attr : String) (aps : List String)
    (vals : List (String × String)) (mc : Nat)
    (allA1 allA2 : List (String × String)) (l : List (String × String)) :
    ∀ m : String → Nat,
      (nestedScan res attr aps vals mc allA1 l m).outcome =
      (nestedScan res attr aps vals mc allA2
        (l.filter (fun kv => decide (3 ≤ (split kv.1).length))) m).outcome := by
  induction l with
  | nil => intro m; rfl
  | cons kv rest ih =>
    obtain ⟨k, v⟩ := kv
    intro m
    by_cases h3 : (split k).length < 3
    · rw [List.filter_cons_of_neg (by simpa using h3)]
      have hstep : nestedScan res attr aps vals mc allA1 ((k, v) :: rest) m =
          nestedScan res attr aps vals mc allA1 rest m := by
        simp only [nestedScan]
        rw [if_pos h3]
      rw [hstep]
      exact ih m
    · rw [List.filter_cons_of_pos (by simpa using Nat.not_lt.mp h3)]
      simp only [nestedScan]
      rw [if_neg h3, if_neg h3]
      rcases hpm : pathMatch aps (split k) with - | b
      · simp only [hpm]
      · cases b with
        | false =>
          simp only [hpm]
          exact ih m
        | true =>
          simp only [hpm]
          rcases hget : (split k).get? (aps.length - 1) with - | id0
          · simp only [hget]
          · simp only [hget]
            rcases hlook : vals.lookup (String.intercalate "."
                ((split k).drop aps.length)) with - | w
            · simp only [hlook]
              exact ih m
            · simp only [hlook]
              by_cases hv : w = v
              · rw [if_pos hv, if_pos hv]
                by_cases hhit : m id0 + 1 = mc
                · rw [if_pos hhit, if_pos hhit]
                · rw [if_neg hhit, if_neg hhit]
                  exact ih _
              · rw [if_neg hv, if_neg hv]
                exact ih m

/-- With a valid pattern, the scalar check's outcome is decided by whether
some entry satisfies `scalarSpecMatch`. -/
theorem elemAttrCheck_outcome_of_valid (res attr value : String)
    (attrs : List (String × String))
    (hpat : (split attr).getD ((split attr).length - 1) "" = sentinelIndex) :
    (elemAttrCheck res attr value attrs).outcome =
      if attrs.any (scalarSpecMatch (split attr) value) then Outcome.ok
      else Outcome.elementNotFound := by
  rw [elemAttrCheck_eq_scan res attr value attrs hpat]
  obtain ⟨hiff, herr⟩ :=
    scalarScan_characterization res attr (split attr) value attrs
      (split_ne_nil attr) attrs
  cases hany : attrs.any (scalarSpecMatch (split attr) value) with
  | false =>
    simp only [hany, if_false, Bool.false_eq_true]
    have hne : scalarScan res attr (split attr) value attrs attrs ≠ .ok := by
      intro hok
      rw [hiff] at hok
      rw [hok] at hany
      exact absurd hany (by simp)
    rw [herr hne]
    rfl
  | true =>
    simp only [hany, if_true]
    rw [hiff.mpr hany]
    rfl

/-- With a valid pattern, a non-zero threshold, and in-bounds keys, the
nested check's outcome is decided by the existence of an element id whose
qualifying entries reach the threshold. -/
theorem nestedAttrsCheck_outcome_of_valid (res attr : String)
    (vals attrs : List (String × String))
    (hpat : (split attr).getD ((split attr).length - 1) "" = sentinelIndex)
    (hmc : matchCount vals ≠ 0)
    (hlen : ∀ kv ∈ attrs, keyLenOK (split attr) kv.1) :
    ((∃ id, matchCount vals ≤
        attrs.countP (nestedQualifies (split attr) vals id)) →
      (nestedAttrsCheck res attr vals attrs).outcome = Outcome.ok) ∧
    ((¬ ∃ id, matchCount vals ≤
        attrs.countP (nestedQualifies (split attr) vals id)) →
      (nestedAttrsCheck res attr vals attrs).outcome = Outcome.elementNotFound) := by
  rw [nestedAttrsCheck_eq_scan res attr vals attrs hpat hmc]
  obtain ⟨hiff, herr⟩ :=
    nestedScan_characterization res attr (split attr) vals (matchCount vals)
      attrs (split_ne_nil attr) attrs (fun _ => 0)
      (fun _ => Nat.pos_of_ne_zero hmc) hlen
  simp only [Nat.zero_add] at hiff
  constructor
  · intro hex
    rw [hiff.mpr hex]
    rfl
  · intro hex
    have hne : nestedScan res attr (split attr) vals (matchCount vals)
        attrs attrs (fun _ => 0) ≠ .ok := fun hok => hex (hiff.mp hok)
    rw [herr hne]
    rfl

/-! ## Claims -/

/-- Claim C1 (amended): for every flat state each of whose keys either has
fewer than three dot-separated segments or at least as many segments as the
pattern, every pattern ending in the wildcard sentinel, and every criteria
map containing at least one non-empty expected value, the nested attribute
matcher succeeds if and only if there exists a single element id whose
qualifying state entries (key considered and matching the pattern with that
id, suffix a criteria key, value equal to that criterion) number at least
the count of non-empty criteria; otherwise it fails with the
element-not-found error carrying the resource context, pattern, full
criteria, and state.  The key-length proviso is forced: without it the
matcher can instead hit an out-of-range segment access (a Go panic), as the
counterexample shows. -/
theorem nestedAttrs_success_iff (res attr : String)
    (vals attrs : List (String × String))
    (hpat : (split attr).getD ((split attr).length - 1) "" = sentinelIndex)
    (hmc : 0 < matchCount vals)
    (hlen : ∀ kv ∈ attrs, keyLenOK (split attr) kv.1) :
    (nestedAttrsCheck res attr vals attrs = .ok ↔
      ∃ id, matchCount vals ≤
        attrs.countP (nestedQualifies (split attr) vals id)) ∧
    ((¬ ∃ id, matchCount vals ≤
        attrs.countP (nestedQualifies (split attr) vals id)) →
      nestedAttrsCheck res attr vals attrs =
        .err (.elementNotFoundNested res attr vals attrs)) := by
  have hmc' : matchCount vals ≠ 0 := Nat.pos_iff_ne_zero.mp hmc
  rw [nestedAttrsCheck_eq_scan res attr vals attrs hpat hmc']
  obtain ⟨hiff, herr⟩ :=
    nestedScan_characterization res attr (split attr) vals (matchCount vals)
      attrs (split_ne_nil attr) attrs (fun _ => 0) (fun _ => hmc) hlen
  simp only [Nat.zero_add] at hiff
  exact ⟨hiff, fun hex => herr (fun hok => hex (hiff.mp hok))⟩

/-- Witness for C1 at a concrete input: the single element id `0` satisfies
the one non-empty criterion, so the matcher succeeds. -/
theorem nestedAttrs_success_iff_witness :
    nestedAttrsCheck "r" "set.*" [("name", "a")] [("set.0.name", "a")] =
      CheckResult.ok :=
  (nestedAttrs_success_iff "r" "set.*" [("name", "a")] [("set.0.name", "a")]
    (by decide) (by decide) (by decide)).1.mpr ⟨"0", by decide⟩

/-- Counterexample to C1 as stated: on state `{"p.q.r": "z"}` with pattern
`"p.q.r.*"` no element id has any qualifying entry, so the claim requires
the element-not-found failure, but the matcher hits an out-of-range segment
access instead (the 3-segment key agrees with the 4-segment pattern on all
segments it has). -/
theorem nestedAttrs_success_iff_cex :
    nestedAttrsCheck "rc" "p.q.r.*" [("g", "1")] [("p.q.r", "z")] =
      CheckResult.panicked ∧
    (nestedAttrsCheck "rc" "p.q.r.*" [("g", "1")] [("p.q.r", "z")]).outcome ≠
      Outcome.ok ∧
    (nestedAttrsCheck "rc" "p.q.r.*" [("g", "1")] [("p.q.r", "z")]).outcome ≠
      Outcome.elementNotFound := by
  decide

/-- Claim C2 (amended): a criterion whose expected value is the empty string
is excluded from the success threshold (the count of non-empty criteria),
but it still confirms matches: a state entry whose value is the empty
string and whose nested-attribute suffix is an empty-valued criterion
increments the element id's counter exactly like any other match, and
triggers immediate success when the counter reaches the threshold. -/
theorem nestedScan_empty_criterion_confirms (res attr : String)
    (aps : List String) (vals : List (String × String)) (mc : Nat)
    (allA rest : List (String × String)) (m : String → Nat) (k id : String)
    (h3 : ¬ (split k).length < 3)
    (hpm : pathMatch aps (split k) = some true)
    (hid : (split k).get? (aps.length - 1) = some id)
    (hlook : vals.lookup (String.intercalate "."
      ((split k).drop aps.length)) = some "") :
    nestedScan res attr aps vals mc allA ((k, "") :: rest) m =
      if m id + 1 = mc then .ok
      else nestedScan res attr aps vals mc allA rest
        (fun j => if j = id then m j + 1 else m j) := by
  simp only [nestedScan]
  rw [if_neg h3]
  simp only [hpm, hid, hlook]
  rw [if_pos trivial]

/-- Witness for C2: the entry `"set.0.a" = ""` matches the empty-valued
criterion `"a"`, and the counter reaching the threshold 1 makes the scan
succeed. -/
theorem nestedScan_empty_criterion_confirms_witness :
    nestedScan "r" "set.*" ["set", "*"] [("a", ""), ("b", "x")] 1 []
      [("set.0.a", "")] (fun _ => 0) = CheckResult.ok :=
  (nestedScan_empty_criterion_confirms "r" "set.*" ["set", "*"]
    [("a", ""), ("b", "x")] 1 [] [] (fun _ => 0) "set.0.a" "0"
    (by decide) (by decide) (by decide) (by decide)).trans (by decide)

/-- Counterexample to C2 as stated: with criteria `{"a": "", "b": "x"}`
(one non-empty value, threshold 1) and state `{"set.0.a": ""}`, the sole
contributing entry matches the empty-valued criterion `"a"`, yet the
matcher succeeds — so an empty-valued criterion does cause the counter to
reach the success threshold. -/
theorem nestedScan_empty_criterion_confirms_cex :
    nestedAttrsCheck "re" "set.*" [("a", ""), ("b", "x")] [("set.0.a", "")] =
      CheckResult.ok := by
  decide

/-- Claim C3: the claim asserts that every positional access of the segment
comparison is in bounds even for state keys with at least three but fewer
segments than the pattern that agree with the pattern on all segments they
have.  The code violates this: on state `{"x.y.z": "w"}` with pattern
`"x.y.z.*"`, the loop reaches position 3 of the 3-segment key and performs
an out-of-range access (a runtime panic in Go), which the embedding
reports as the panic outcome. -/
theorem nestedAttrs_short_key_out_of_range :
    nestedAttrsCheck "rs" "x.y.z.*" [("f", "v")] [("x.y.z", "w")] =
      CheckResult.panicked := by
  decide

/-- Claim C4: for every flat state, pattern ending in the wildcard
sentinel, and expected scalar value, the scalar element matcher succeeds
iff some state entry has a key with exactly the pattern's segment count,
the expected value, and segments matching the pattern position-for-position
(sentinel segments matching any single segment); if no such key exists it
fails with the element-not-found error carrying the pattern, expected
value, and state. -/
theorem elemAttr_success_iff (res attr value : String)
    (attrs : List (String × String))
    (hpat : (split attr).getD ((split attr).length - 1) "" = sentinelIndex) :
    (elemAttrCheck res attr value attrs = .ok ↔
      attrs.any (scalarSpecMatch (split attr) value) = true) ∧
    (attrs.any (scalarSpecMatch (split attr) value) = false →
      elemAttrCheck res attr value attrs =
        .err (.elementNotFoundScalar res attr value attrs)) := by
  rw [elemAttrCheck_eq_scan res attr value attrs hpat]
  obtain ⟨hiff, herr⟩ :=
    scalarScan_characterization res attr (split attr) value attrs
      (split_ne_nil attr) attrs
  refine ⟨hiff, fun hany => herr (fun hok => ?_)⟩
  rw [hiff] at hok
  rw [hok] at hany
  exact absurd hany (by simp)

/-- Witness for C4: key `"set.0"` has the pattern's two segments and the
expected value, so the scalar matcher succeeds. -/
theorem elemAttr_success_iff_witness :
    elemAttrCheck "r" "set.*" "x" [("set.0", "x")] = CheckResult.ok :=
  (elemAttr_success_iff "r" "set.*" "x" [("set.0", "x")] (by decide)).1.mpr
    (by decide)

/-- Claim C5 (amended): the nested attribute matcher considers exactly the
state keys with at least three dot-separated segments — filtering out the
shorter keys never changes the outcome.  The claimed bound of the pattern's
segment count plus two is wrong: a key with three segments (fewer than
2 + 2) does affect the result, as the counterexample shows. -/
theorem nestedAttrs_considers_min_three_segments (res attr : String)
    (vals attrs : List (String × String)) :
    (nestedAttrsCheck res attr vals attrs).outcome =
      (nestedAttrsCheck res attr vals
        (attrs.filter (fun kv => decide (3 ≤ (split kv.1).length)))).outcome := by
  simp only [nestedAttrsCheck]
  by_cases hpat : (split attr).getD ((split attr).length - 1) "" ≠ sentinelIndex
  · rw [if_pos hpat, if_pos hpat]
  · rw [if_neg hpat, if_neg hpat]
    by_cases hmc : matchCount vals = 0
    · rw [if_pos hmc, if_pos hmc]
    · rw [if_neg hmc, if_neg hmc]
      exact nestedScan_filter_outcome res attr (split attr) vals
        (matchCount vals) attrs
        (attrs.filter (fun kv => decide (3 ≤ (split kv.1).length))) attrs
        (fun _ => 0)

/-- Counterexample to C5 as stated: the key `"set.0.name"` has 3 segments,
below the claimed bound of pattern length + 2 = 4 for pattern `"set.*"`,
yet removing it flips the matcher from success to failure — so a key below
the claimed bound does affect the result. -/
theorem nestedAttrs_considers_min_three_segments_cex :
    nestedAttrsCheck "r5" "set.*" [("name", "a")] [("set.0.name", "a")] =
      CheckResult.ok ∧
    nestedAttrsCheck "r5" "set.*" [("name", "a")] [] =
      CheckResult.err (MatchError.elementNotFoundNested "r5" "set.*"
        [("name", "a")] []) ∧
    (split "set.0.name").length < (split "set.*").length + 2 := by
  decide

/-- Claim C6: satisfied-criteria counters are tracked strictly per element
id — whenever the nested matcher succeeds, a single element id's own
qualifying entries reach the non-empty-criteria threshold; and on the
cross-id state `{"set.0.name": "a", "set.1.port": "80"}` with criteria
`{"name": "a", "port": "80"}` the matcher fails with the element-not-found
error, because no single id satisfies both criteria. -/
theorem nestedAttrs_no_cross_id_bleed :
    (∀ (res attr : String) (vals attrs : List (String × String)),
      nestedAttrsCheck res attr vals attrs = .ok →
      ∃ id, matchCount vals ≤
        attrs.countP (nestedQualifies (split attr) vals id)) ∧
    nestedAttrsCheck "r" "set.*" [("name", "a"), ("port", "80")]
      [("set.0.name", "a"), ("set.1.port", "80")] =
      .err (.elementNotFoundNested "r" "set.*" [("name", "a"), ("port", "80")]
        [("set.0.name", "a"), ("set.1.port", "80")]) := by
  constructor
  · intro res attr vals attrs hok
    by_cases hpat : (split attr).getD ((split attr).length - 1) "" = sentinelIndex
    · by_cases hmc : matchCount vals = 0
      · have hstep : nestedAttrsCheck res attr vals attrs =
            .err (.emptyCriteria vals) := by
          simp only [nestedAttrsCheck]
          rw [if_neg (fun hc => hc hpat), if_pos hmc]
        rw [hstep] at hok
        exact absurd hok (by simp)
      · rw [nestedAttrsCheck_eq_scan res attr vals attrs hpat hmc] at hok
        have hex := nestedScan_ok_exists res attr (split attr) vals
          (matchCount vals) attrs (split_ne_nil attr) attrs (fun _ => 0) hok
        simpa using hex
    · have hstep : nestedAttrsCheck res attr vals attrs =
          .err (.invalidPattern attr) := by
        simp only [nestedAttrsCheck]
        rw [if_pos hpat]
      rw [hstep] at hok
      exact absurd hok (by simp)
  · decide

/-- Witness for C6: a successful run yields a single element id reaching
the threshold. -/
theorem nestedAttrs_no_cross_id_bleed_witness :
    ∃ id, matchCount [("name", "a")] ≤
      List.countP (nestedQualifies (split "set.*") [("name", "a")] id)
        [("set.0.name", "a")] :=
  nestedAttrs_no_cross_id_bleed.1 "r" "set.*" [("name", "a")]
    [("set.0.name", "a")] (by decide)

/-- Claim C7: for every pattern whose last dot-separated segment is not the
wildcard sentinel, both matchers fail with the invalid-pattern error,
whatever the flat state, expected value, and criteria map — so no matching
against state entries is ever attempted. -/
theorem invalid_pattern_both_matchers (res attr value : String)
    (vals attrs : List (String × String))
    (h : (split attr).getD ((split attr).length - 1) "" ≠ sentinelIndex) :
    nestedAttrsCheck res attr vals attrs = .err (.invalidPattern attr) ∧
    elemAttrCheck res attr value attrs = .err (.invalidPattern attr) := by
  constructor
  · simp only [nestedAttrsCheck]
    rw [if_pos h]
  · simp only [elemAttrCheck]
    rw [if_pos h]

/-- Witness for C7 at the pattern `"set.0"`, whose last segment `"0"` is
not the sentinel. -/
theorem invalid_pattern_both_matchers_witness :
    nestedAttrsCheck "r" "set.0" [("a", "b")] [("k", "v")] =
      CheckResult.err (MatchError.invalidPattern "set.0") ∧
    elemAttrCheck "r" "set.0" "x" [("k", "v")] =
      CheckResult.err (MatchError.invalidPattern "set.0") :=
  invalid_pattern_both_matchers "r" "set.0" "x" [("a", "b")] [("k", "v")]
    (by decide)

/-- Claim C8: for every criteria map whose expected values are all the
empty string (including the empty map) and every well-formed pattern, the
nested matcher fails with the empty-criteria error regardless of the flat
state's content, so no state entry is ever examined. -/
theorem empty_criteria_rejected (res attr : String)
    (vals attrs : List (String × String))
    (hpat : (split attr).getD ((split attr).length - 1) "" = sentinelIndex)
    (hempty : ∀ kv ∈ vals, kv.2 = "") :
    nestedAttrsCheck res attr vals attrs = .err (.emptyCriteria vals) := by
  have hmc : matchCount vals = 0 := by
    rw [matchCount, List.countP_eq_zero]
    intro kv hkv
    simp [hempty kv hkv]
  simp only [nestedAttrsCheck]
  rw [if_neg (fun hc => hc hpat), if_pos hmc]

/-- Witness for C8 with the all-empty criteria map `{"a": ""}` over a
non-empty state. -/
theorem empty_criteria_rejected_witness :
    nestedAttrsCheck "r" "set.*" [("a", "")] [("k", "v")] =
      CheckResult.err (MatchError.emptyCriteria [("a", "")]) :=
  empty_criteria_rejected "r" "set.*" [("a", "")] [("k", "v")] (by decide)
    (by decide)

/-- Claim C9 (amended): permuting the iteration order of the flat state's
entries never changes the success/failure outcome — unconditionally for the
scalar matcher (its length-equality guard keeps the segment loop in
bounds), and for the nested matcher provided every state key either has
fewer than three segments or at least as many segments as the pattern.
The nested-side proviso is forced: without it one order can succeed while
another hits the out-of-range segment access first, as the counterexample
shows. -/
theorem order_independence (res attr value : String)
    (vals l1 l2 : List (String × String)) (hperm : l1.Perm l2) :
    (elemAttrCheck res attr value l1).outcome =
      (elemAttrCheck res attr value l2).outcome ∧
    ((∀ kv ∈ l1, keyLenOK (split attr) kv.1) →
      (nestedAttrsCheck res attr vals l1).outcome =
        (nestedAttrsCheck res attr vals l2).outcome) := by
  constructor
  · by_cases hpat : (split attr).getD ((split attr).length - 1) "" = sentinelIndex
    · rw [elemAttrCheck_outcome_of_valid res attr value l1 hpat,
        elemAttrCheck_outcome_of_valid res attr value l2 hpat]
      have hany : l1.any (scalarSpecMatch (split attr) value) =
          l2.any (scalarSpecMatch (split attr) value) := by
        cases h1 : l1.any (scalarSpecMatch (split attr) value) with
        | false =>
          cases h2 : l2.any (scalarSpecMatch (split attr) value) with
          | false => rfl
          | true =>
            rw [List.any_eq_true] at h2
            obtain ⟨x, hx, hpx⟩ := h2
            have hcon : l1.any (scalarSpecMatch (split attr) value) = true :=
              List.any_eq_true.mpr ⟨x, hperm.mem_iff.mpr hx, hpx⟩
            rw [h1] at hcon
            exact absurd hcon (by simp)
        | true =>
          cases h2 : l2.any (scalarSpecMatch (split attr) value) with
          | true => rfl
          | false =>
            rw [List.any_eq_true] at h1
            obtain ⟨x, hx, hpx⟩ := h1
            have hcon : l2.any (scalarSpecMatch (split attr) value) = true :=
              List.any_eq_true.mpr ⟨x, hperm.mem_iff.mp hx, hpx⟩
            rw [h2] at hcon
            exact absurd hcon (by simp)
      rw [hany]
    · have e1 : elemAttrCheck res attr value l1 = .err (.invalidPattern attr) := by
        simp only [elemAttrCheck]
        rw [if_pos hpat]
      have e2 : elemAttrCheck res attr value l2 = .err (.invalidPattern attr) := by
        simp only [elemAttrCheck]
        rw [if_pos hpat]
      rw [e1, e2]
  · intro hlen
    by_cases hpat : (split attr).getD ((split attr).length - 1) "" = sentinelIndex
    · by_cases hmc : matchCount vals = 0
      · have e1 : nestedAttrsCheck res attr vals l1 = .err (.emptyCriteria vals) := by
          simp only [nestedAttrsCheck]
          rw [if_neg (fun hc => hc hpat), if_pos hmc]
        have e2 : nestedAttrsCheck res attr vals l2 = .err (.emptyCriteria vals) := by
          simp only [nestedAttrsCheck]
          rw [if_neg (fun hc => hc hpat), if_pos hmc]
        rw [e1, e2]
      · have hlen2 : ∀ kv ∈ l2, keyLenOK (split attr) kv.1 :=
          fun kv h => hlen kv (hperm.mem_iff.mpr h)
        obtain ⟨hok1, hnf1⟩ :=
          nestedAttrsCheck_outcome_of_valid res attr vals l1 hpat hmc hlen
        obtain ⟨hok2, hnf2⟩ :=
          nestedAttrsCheck_outcome_of_valid res attr vals l2 hpat hmc hlen2
        have hcnt : ∀ id, List.countP (nestedQualifies (split attr) vals id) l1 =
            List.countP (nestedQualifies (split attr) vals id) l2 :=
          fun id => hperm.countP_eq _
        by_cases hex : ∃ id, matchCount vals ≤
            List.countP (nestedQualifies (split attr) vals id) l1
        · obtain ⟨id, hid⟩ := hex
          rw [hok1 ⟨id, hid⟩, hok2 ⟨id, by rw [← hcnt id]; exact hid⟩]
        · rw [hnf1 hex,
            hnf2 (fun ⟨id, hid⟩ => hex ⟨id, by rw [hcnt id]; exact hid⟩)]
    · have e1 : nestedAttrsCheck res attr vals l1 = .err (.invalidPattern attr) := by
        simp only [nestedAttrsCheck]
        rw [if_pos hpat]
      have e2 : nestedAttrsCheck res attr vals l2 = .err (.invalidPattern attr) := by
        simp only [nestedAttrsCheck]
        rw [if_pos hpat]
      rw [e1, e2]

/-- Witness for C9 on two orderings of a two-entry state whose keys are all
in bounds for the pattern. -/
theorem order_independence_witness :
    (elemAttrCheck "r" "tags.*" "v" [("tags.0", "v"), ("tags.1", "w")]).outcome =
      (elemAttrCheck "r" "tags.*" "v" [("tags.1", "w"), ("tags.0", "v")]).outcome ∧
    (nestedAttrsCheck "r" "tags.*" [("x", "1")]
        [("tags.0", "v"), ("tags.1", "w")]).outcome =
      (nestedAttrsCheck "r" "tags.*" [("x", "1")]
        [("tags.1", "w"), ("tags.0", "v")]).outcome :=
  ⟨(order_independence "r" "tags.*" "v" [("x", "1")]
      [("tags.0", "v"), ("tags.1", "w")] [("tags.1", "w"), ("tags.0", "v")]
      (by decide)).1,
   (order_independence "r" "tags.*" "v" [("x", "1")]
      [("tags.0", "v"), ("tags.1", "w")] [("tags.1", "w"), ("tags.0", "v")]
      (by decide)).2 (by decide)⟩

/-- Counterexample to C9 as stated: the two orderings of the same snapshot
give different outcomes for the nested matcher — the order that reaches the
matching entry first succeeds, while the other hits the out-of-range
segment access on the 3-segment key `"a.b.c"` first. -/
theorem order_independence_cex :
    ([(("a.b.c.0.x" : String), ("v" : String)), ("a.b.c", "z")]).Perm
      [("a.b.c", "z"), ("a.b.c.0.x", "v")] ∧
    nestedAttrsCheck "r9" "a.b.c.*" [("x", "v")]
      [("a.b.c.0.x", "v"), ("a.b.c", "z")] = CheckResult.ok ∧
    nestedAttrsCheck "r9" "a.b.c.*" [("x", "v")]
      [("a.b.c", "z"), ("a.b.c.0.x", "v")] = CheckResult.panicked := by
  decide

/-- Claim C10: for both query functions, a missing resource yields the
resource-not-found error carrying the resource name and module path, and a
resource without a primary instance yields the instance-not-found error —
whatever the pattern, expected value, and criteria, so no pattern
validation or state matching is performed. -/
theorem resource_instance_lookup_errors (res attr value : String)
    (vals : List (String × String)) (s : TfState) :
    (s.rootModule.resources.lookup res = none →
      TestCheckTypeSetElemNestedAttrs res attr vals s =
        .err (.resourceNotFound res s.rootModule.path) ∧
      TestCheckTypeSetElemAttr res attr value s =
        .err (.resourceNotFound res s.rootModule.path)) ∧
    (∀ rs : ResourceState, s.rootModule.resources.lookup res = some rs →
      rs.primary = none →
      TestCheckTypeSetElemNestedAttrs res attr vals s =
        .err (.instanceNotFound res s.rootModule.path) ∧
      TestCheckTypeSetElemAttr res attr value s =
        .err (.instanceNotFound res s.rootModule.path)) := by
  constructor
  · intro h
    constructor
    · simp only [TestCheckTypeSetElemNestedAttrs, h]
    · simp only [TestCheckTypeSetElemAttr, h]
  · intro rs hrs hprim
    constructor
    · simp only [TestCheckTypeSetElemNestedAttrs, hrs, hprim]
    · simp only [TestCheckTypeSetElemAttr, hrs, hprim]

/-- Witness for C10: a state without the resource `"r"`, and one where
`"r"` exists but has no primary instance; the invalid pattern `"set.0"`
shows that neither case reaches pattern validation. -/
theorem resource_instance_lookup_errors_witness :
    (TestCheckTypeSetElemNestedAttrs "r" "set.0" [("a", "b")]
        ⟨⟨["root"], []⟩⟩ =
      CheckResult.err (MatchError.resourceNotFound "r" ["root"]) ∧
     TestCheckTypeSetElemAttr "r" "set.0" "v" ⟨⟨["root"], []⟩⟩ =
      CheckResult.err (MatchError.resourceNotFound "r" ["root"])) ∧
    (TestCheckTypeSetElemNestedAttrs "r" "set.0" [("a", "b")]
        ⟨⟨["root"], [("r", ⟨none⟩)]⟩⟩ =
      CheckResult.err (MatchError.instanceNotFound "r" ["root"]) ∧
     TestCheckTypeSetElemAttr "r" "set.0" "v"
        ⟨⟨["root"], [("r", ⟨none⟩)]⟩⟩ =
      CheckResult.err (MatchError.instanceNotFound "r" ["root"])) :=
  ⟨(resource_instance_lookup_errors "r" "set.0" "v" [("a", "b")]
      ⟨⟨["root"], []⟩⟩).1 (by decide),
   (resource_instance_lookup_errors "r" "set.0" "v" [("a", "b")]
      ⟨⟨["root"], [("r", ⟨none⟩)]⟩⟩).2 ⟨none⟩ (by decide) rfl⟩
